import Mathlib

/-!
Verification development for the ID3v2 tag reader
(`sonata-codec-mp3/src/id3v2/mod.rs`).

The Rust code is shallowly embedded: byte sources become `List Nat`
(each element a byte value), fallible reads become `Option`/`Id3Result`,
and machine-integer arithmetic is `Nat` with explicit wrapping
(`% 4294967296` for `u32`, shift amounts masked by `% 32`) where the
source can overflow, matching release-mode Rust semantics.  A `panic`
(`unreachable!`, out-of-bounds index) is modelled as `none` /
`Id3Result.panicked`.
-/

set_option maxHeartbeats 1000000

/-- The in-place unsynchronisation compaction loop shared by
`decode_unsynchronisation` (lines 103-116) and
`UnsyncStream::read_buf_bytes` (lines 207-222): copy each byte, and after
copying a `0xff` whose successor is `0x00`, skip that `0x00`. -/
def unsyncCore : List Nat → List Nat
  | [] => []
  | [a] => [a]
  | a :: b :: t =>
    if a = 255 ∧ b = 0 then a :: unsyncCore t
    else a :: unsyncCore (b :: t)

/-- Embedding of `decode_unsynchronisation` (lines 97-119).  For an empty
buffer the source computes `len - 1` with `len = 0usize`, wrapping to
`usize::MAX`, and then indexes `buf[0]` out of bounds: a panic, modelled as
`none`.  For a non-empty buffer the function returns the compacted prefix. -/
def decode_unsynchronisation (buf : List Nat) : Option (List Nat) :=
  match buf with
  | [] => none
  | _ :: _ => some (unsyncCore buf)

/-- Whether a buffer contains a `0xff, 0x00` byte pair at adjacent positions. -/
def hasFF00 : List Nat → Bool
  | a :: b :: t => (a == 255 && b == 0) || hasFF00 (b :: t)
  | _ => false

/-- State of an `UnsyncStream` (lines 121-133): `byte` is the last raw byte
observed (initialised to `0` by `UnsyncStream::new`), `raw` the remaining
bytes of the wrapped inner stream. -/
structure UState where
  byte : Nat
  raw : List Nat
deriving DecidableEq

namespace UnsyncStream

/-- Embedding of `UnsyncStream::read_byte` (lines 154-166): read one raw
byte; if the previously observed byte was `0xff` and this byte is `0x00`,
discard it and read one more raw byte; the returned byte becomes the new
`byte` state.  A read past the end of the inner stream is `none`. -/
def read_byte (s : UState) : Option (Nat × UState) :=
  match s.raw with
  | [] => none
  | b :: rest =>
    if s.byte = 255 ∧ b = 0 then
      match rest with
      | [] => none
      | c :: r2 => some (c, ⟨c, r2⟩)
    else some (b, ⟨b, rest⟩)

/-- The top-up loop at the end of `UnsyncStream::read_buf_bytes`
(lines 225-228): fill the remaining `n` output slots with single decoded
byte reads. -/
def topUp : Nat → UState → Option (List Nat × UState)
  | 0, s => some ([], s)
  | n + 1, s =>
    match read_byte s with
    | none => none
    | some (v, s1) =>
      match topUp n s1 with
      | none => none
      | some (vs, s2) => some (v :: vs, s2)

/-- Embedding of `UnsyncStream::read_buf_bytes` (lines 192-232): for `n = 0`
return immediately; otherwise fill the buffer with `n` raw bytes from the
inner stream (failing if fewer remain), drop a leading `0x00` when the last
observed byte was `0xff`, record the chunk's last raw byte as the new
`byte` state, run the in-place compaction, and top up the missing slots
with decoded single-byte reads. -/
def read_buf_bytes (n : Nat) (s : UState) : Option (List Nat × UState) :=
  if n = 0 then some ([], s)
  else if s.raw.length < n then none
  else
    let chunk := s.raw.take n
    let rest := s.raw.drop n
    let src0 : Nat := if s.byte = 255 ∧ chunk.headD 0 = 0 then 1 else 0
    let byteNew := chunk.getLastD 0
    let decoded := unsyncCore (chunk.drop src0)
    match topUp (n - decoded.length) ⟨byteNew, rest⟩ with
    | none => none
    | some (extra, s2) => some (decoded ++ extra, s2)

/-- Embedding of `UnsyncStream::ignore_bytes` (lines 234-239): the source
calls `self.inner.read_byte()` `count` times, i.e. it skips `count` RAW
bytes of the inner stream and leaves the `byte` state untouched. -/
def ignore_bytes (count : Nat) (s : UState) : Option UState :=
  if s.raw.length < count then none
  else some ⟨s.byte, s.raw.drop count⟩

end UnsyncStream

/-- Modelled from the spec (§4.5, claim C3): "Skipping N bytes must perform
N decoded single-byte reads, not N raw-byte seeks, so stuffed zeros are
still correctly elided."  Missing from the source: the source's
`ignore_bytes` does not do this (it reads raw bytes); this definition is the
spec's description, for comparison. -/
def ignore_bytes_decoded : Nat → UState → Option UState
  | 0, s => some s
  | n + 1, s =>
    match UnsyncStream.read_byte s with
    | none => none
    | some (_, s1) => ignore_bytes_decoded n s1

/-- One kind of read call issued against an `UnsyncStream`: a single-byte
read (`read_byte`) or a bulk read of `n` bytes (`read_buf_bytes`). -/
inductive ReadOp where
  | single : ReadOp
  | bulk : Nat → ReadOp
deriving DecidableEq

/-- Run a sequence of read calls against an `UnsyncStream`, concatenating
the decoded bytes they return. -/
def runOps : List ReadOp → UState → Option (List Nat × UState)
  | [], s => some ([], s)
  | ReadOp.single :: ops, s =>
    match UnsyncStream.read_byte s with
    | none => none
    | some (v, s1) =>
      match runOps ops s1 with
      | none => none
      | some (vs, s2) => some (v :: vs, s2)
  | ReadOp.bulk n :: ops, s =>
    match UnsyncStream.read_buf_bytes n s with
    | none => none
    | some (vs, s1) =>
      match runOps ops s1 with
      | none => none
      | some (ws, s2) => some (vs ++ ws, s2)

/-- Maximal decoded byte sequence obtainable from state `(last, raw)` by
repeated `read_byte` calls; the reference semantics used to relate the
streaming filter to the one-shot transform. -/
def streamOut : Nat → List Nat → List Nat
  | _, [] => []
  | last, b :: rest =>
    if last = 255 ∧ b = 0 then
      match rest with
      | [] => []
      | c :: r2 => c :: streamOut c r2
    else b :: streamOut b rest

/-- Embedding of `Bytestream::read_u8` for a list byte source: take the
next byte or fail. -/
def read_u8 (l : List Nat) : Option (Nat × List Nat) :=
  match l with
  | [] => none
  | b :: rest => some (b, rest)

/-- Embedding of `Bytestream::read_triple_bytes` for a list byte source. -/
def read_triple_bytes (l : List Nat) : Option ((Nat × Nat × Nat) × List Nat) :=
  match l with
  | a :: b :: c :: rest => some ((a, b, c), rest)
  | _ => none

/-- The `while bits_read < bit_width` loop of `read_syncsafe_leq32`
(lines 89-92), with release-mode `u32` semantics: the shift amount
`bit_width - bits_read` is wrapping subtraction modulo `2^32`, and `<<` on
`u32` masks the shift amount with `& 31` and keeps the low 32 bits of the
result. -/
def syncsafeLoop (bitWidth : Nat) : List Nat → Nat → Nat → Option (Nat × List Nat)
  | l, bitsRead, result =>
    if bitsRead < bitWidth then
      match l with
      | [] => none
      | b :: rest =>
        syncsafeLoop bitWidth rest (bitsRead + 7)
          ((result |||
            ((b &&& 127) <<< (((bitWidth + 4294967296 - (bitsRead + 7)) % 4294967296) % 32)))
            % 4294967296)
    else some (result, l)

/-- Embedding of `read_syncsafe_leq32` (lines 83-95): run the accumulation
loop, then mask with `0xffffffff >> (32 - bit_width)` (again with
release-mode wrapping semantics for the shift amount). -/
def read_syncsafe_leq32 (l : List Nat) (bitWidth : Nat) : Option (Nat × List Nat) :=
  match syncsafeLoop bitWidth l 0 0 with
  | none => none
  | some (r, rest) =>
    some (r &&& (4294967295 >>> (((32 + 4294967296 - bitWidth) % 4294967296) % 32)), rest)

/-- Modelled from the spec (§4.1, claim C2): "Consumes bytes one at a time;
each byte contributes its low 7 bits (top bit masked off) into the result,
most-significant group first, until at least `bit_width` bits have been
accumulated; the final result is masked to exactly `bit_width` bits.
Number of bytes consumed = ceil(bit_width/7)."  This is the spec's
description of the syncsafe decoder, for comparison with the source's
`read_syncsafe_leq32`. -/
def read_syncsafe_spec (l : List Nat) (bitWidth : Nat) : Option (Nat × List Nat) :=
  let n := (bitWidth + 6) / 7
  if l.length < n then none
  else some (((l.take n).foldl (fun acc b => acc * 128 + (b &&& 127)) 0) % 2 ^ bitWidth,
             l.drop n)

/-- Symbolic value of a 28-bit syncsafe read, mirroring the exact
arithmetic `syncsafeLoop` performs on four bytes. -/
def ss28 (s1 s2 s3 s4 : Nat) : Nat :=
  ((((((((0 ||| ((s1 &&& 127) <<< 21)) % 4294967296)
        ||| ((s2 &&& 127) <<< 14)) % 4294967296)
        ||| ((s3 &&& 127) <<< 7)) % 4294967296)
        ||| ((s4 &&& 127) <<< 0)) % 4294967296)
    &&& (4294967295 >>> 4)

/-- Result type of the reader functions: `ok` carries the parsed value and
the remaining bytes; `decodeErr` and `unsupportedErr` are the two error
kinds produced by this module; `ioErr` is a propagated read failure of the
underlying source; `panicked` models a Rust panic (`unreachable!`). -/
inductive Id3Result (α : Type) where
  | ok : α → Id3Result α
  | decodeErr : Id3Result α
  | unsupportedErr : Id3Result α
  | ioErr : Id3Result α
  | panicked : Id3Result α
deriving DecidableEq

/-- Embedding of `Header` (lines 51-60). -/
structure Header where
  major_version : Nat
  minor_version : Nat
  size : Nat
  unsynchronisation : Bool
  has_extended_header : Bool
  experimental : Bool
  has_footer : Bool
deriving DecidableEq

/-- Embedding of `read_id3v2_header` (lines 243-298): reads the 3-byte
magic, major version, minor version, flags and 28-bit syncsafe size in
order, then validates and version-gates the flag bits exactly as the
source's sequence of `if` statements does. -/
def read_id3v2_header (l : List Nat) : Id3Result (Header × List Nat) :=
  match read_triple_bytes l with
  | none => .ioErr
  | some ((a, b, c), l1) =>
    if ¬(a = 73 ∧ b = 68 ∧ c = 51) then .unsupportedErr
    else match read_u8 l1 with
    | none => .ioErr
    | some (major_version, l2) =>
      match read_u8 l2 with
      | none => .ioErr
      | some (minor_version, l3) =>
        match read_u8 l3 with
        | none => .ioErr
        | some (flags, l4) =>
          match read_syncsafe_leq32 l4 28 with
          | none => .ioErr
          | some (size, l5) =>
            let header : Header :=
              { major_version, minor_version, size,
                unsynchronisation := false, has_extended_header := false,
                experimental := false, has_footer := false }
            if major_version = 255 ∨ minor_version = 255 then .decodeErr
            else if major_version < 2 ∨ major_version > 4 then .unsupportedErr
            else if major_version = 2 ∧ flags &&& 64 ≠ 0 then .unsupportedErr
            else
              let h1 :=
                if 2 ≤ major_version then
                  { header with unsynchronisation := flags &&& 128 != 0 }
                else header
              let h2 :=
                if 3 ≤ major_version then
                  { h1 with has_extended_header := flags &&& 64 != 0,
                            experimental := flags &&& 32 != 0 }
                else h1
              let h3 :=
                if 4 ≤ major_version then
                  { h2 with has_footer := flags &&& 16 != 0 }
                else h2
              .ok (h3, l5)

/-- Embedding of `TagSizeRestriction` (lines 15-21). -/
inductive TagSizeRestriction where
  | Max128Frames1024KiB | Max64Frames128KiB | Max32Frames40KiB | Max32Frames4KiB
deriving DecidableEq

/-- Embedding of `TextEncodingRestriction` (lines 23-27). -/
inductive TextEncodingRestriction where
  | None | Utf8OrIso88591
deriving DecidableEq

/-- Embedding of `TextFieldSize` (lines 29-35). -/
inductive TextFieldSize where
  | None | Max1024Characters | Max128Characters | Max30Characters
deriving DecidableEq

/-- Embedding of `ImageEncodingRestriction` (lines 37-41). -/
inductive ImageEncodingRestriction where
  | None | PngOrJpegOnly
deriving DecidableEq

/-- Embedding of `ImageSizeRestriction` (lines 43-49). -/
inductive ImageSizeRestriction where
  | None | LessThan256x256 | LessThan64x64 | Exactly64x64
deriving DecidableEq

/-- Embedding of `Restrictions` (lines 62-69). -/
structure Restrictions where
  tag_size : TagSizeRestriction
  text_encoding : TextEncodingRestriction
  text_field_size : TextFieldSize
  image_encoding : ImageEncodingRestriction
  image_size : ImageSizeRestriction
deriving DecidableEq

/-- Embedding of `ExtendedHeader` (lines 71-81). -/
structure ExtendedHeader where
  padding_size : Option Nat
  crc32 : Option Nat
  is_update : Option Bool
  restrictions : Option Restrictions
deriving DecidableEq

/-- The `match (restrictions & 0xc0) >> 6` at lines 367-373; the
`unreachable!()` arm (a panic) is `none`. -/
def tag_size_of : Nat → Option TagSizeRestriction
  | 0 => some TagSizeRestriction.Max128Frames1024KiB
  | 1 => some TagSizeRestriction.Max64Frames128KiB
  | 2 => some TagSizeRestriction.Max32Frames40KiB
  | 3 => some TagSizeRestriction.Max32Frames4KiB
  | _ => none

/-- The `match (restrictions & 0x40) >> 5` at lines 375-379; the
`unreachable!()` arm (a panic) is `none`.  Note the shifted value is `0` or
`2`, never `1`, so the arm IS reachable. -/
def text_encoding_of : Nat → Option TextEncodingRestriction
  | 0 => some TextEncodingRestriction.None
  | 1 => some TextEncodingRestriction.Utf8OrIso88591
  | _ => none

/-- The `match (restrictions & 0x18) >> 3` at lines 381-387. -/
def text_field_size_of : Nat → Option TextFieldSize
  | 0 => some TextFieldSize.None
  | 1 => some TextFieldSize.Max1024Characters
  | 2 => some TextFieldSize.Max128Characters
  | 3 => some TextFieldSize.Max30Characters
  | _ => none

/-- The `match (restrictions & 0x04) >> 2` at lines 389-393. -/
def image_encoding_of : Nat → Option ImageEncodingRestriction
  | 0 => some ImageEncodingRestriction.None
  | 1 => some ImageEncodingRestriction.PngOrJpegOnly
  | _ => none

/-- The `match restrictions & 0x03` at lines 395-401. -/
def image_size_of : Nat → Option ImageSizeRestriction
  | 0 => some ImageSizeRestriction.None
  | 1 => some ImageSizeRestriction.LessThan256x256
  | 2 => some ImageSizeRestriction.LessThan64x64
  | 3 => some ImageSizeRestriction.Exactly64x64
  | _ => none

/-- Decoding of one restrictions byte inside `read_id3v2p4_extended_header`
(lines 365-409): the five field matches in source order; `none` means the
decoding panicked via an `unreachable!()` arm. -/
def decode_restrictions (restrictions : Nat) : Option Restrictions :=
  match tag_size_of ((restrictions &&& 192) >>> 6) with
  | none => none
  | some tag_size =>
    match text_encoding_of ((restrictions &&& 64) >>> 5) with
    | none => none
    | some text_encoding =>
      match text_field_size_of ((restrictions &&& 24) >>> 3) with
      | none => none
      | some text_field_size =>
        match image_encoding_of ((restrictions &&& 4) >>> 2) with
        | none => none
        | some image_encoding =>
          match image_size_of (restrictions &&& 3) with
          | none => none
          | some image_size =>
            some { tag_size, text_encoding, text_field_size, image_encoding, image_size }

/-- The restrictions-flag block of `read_id3v2p4_extended_header`
(lines 358-410): if flags bit `0x10` is set, a length byte that must be 1,
then one restrictions byte. -/
def p4_ext_restr_step (flags : Nat) (hdr : ExtendedHeader) (l : List Nat) :
    Id3Result (ExtendedHeader × List Nat) :=
  if flags &&& 16 = 16 then
    match read_u8 l with
    | none => .ioErr
    | some (len, l1) =>
      if len ≠ 1 then .decodeErr
      else match read_u8 l1 with
        | none => .ioErr
        | some (rb, l2) =>
          match decode_restrictions rb with
          | none => .panicked
          | some r => .ok ({ hdr with restrictions := some r }, l2)
  else .ok (hdr, l)

/-- The CRC32-flag block of `read_id3v2p4_extended_header` (lines 348-356):
if flags bit `0x20` is set, a length byte that must be 5, then a 32-bit
syncsafe CRC. -/
def p4_ext_crc_step (flags : Nat) (hdr : ExtendedHeader) (l : List Nat) :
    Id3Result (ExtendedHeader × List Nat) :=
  if flags &&& 32 = 32 then
    match read_u8 l with
    | none => .ioErr
    | some (len, l1) =>
      if len ≠ 5 then .decodeErr
      else match read_syncsafe_leq32 l1 32 with
        | none => .ioErr
        | some (crc, l2) => p4_ext_restr_step flags { hdr with crc32 := some crc } l2
  else p4_ext_restr_step flags hdr l

/-- The is-update-flag block of `read_id3v2p4_extended_header`
(lines 338-346): if flags bit `0x40` is set, a length byte that must be 1,
and `is_update` becomes `some true`. -/
def p4_ext_update_step (flags : Nat) (hdr : ExtendedHeader) (l : List Nat) :
    Id3Result (ExtendedHeader × List Nat) :=
  if flags &&& 64 = 64 then
    match read_u8 l with
    | none => .ioErr
    | some (len, l1) =>
      if len ≠ 1 then .decodeErr
      else p4_ext_crc_step flags { hdr with is_update := some true } l1
  else p4_ext_crc_step flags hdr l

/-- Embedding of `read_id3v2p4_extended_header` (lines 322-413): 28-bit
syncsafe size, a flag-length byte that must be 1, a flags byte, then the
three optional flag blocks in source order, starting from a header whose
`is_update` defaults to `some false`. -/
def read_id3v2p4_extended_header (l : List Nat) : Id3Result (ExtendedHeader × List Nat) :=
  match read_syncsafe_leq32 l 28 with
  | none => .ioErr
  | some (_, l1) =>
    match read_u8 l1 with
    | none => .ioErr
    | some (fl_len, l2) =>
      if fl_len ≠ 1 then .decodeErr
      else match read_u8 l2 with
        | none => .ioErr
        | some (flags, l3) =>
          p4_ext_update_step flags
            { padding_size := none, crc32 := none,
              is_update := some false, restrictions := none } l3

/-- The `min_frame_size` match of `read_id3v2_body` (lines 426-430); the
`unreachable!()` arm is a panic, modelled as `none`. -/
def min_frame_size : Nat → Option Nat
  | 2 => some 6
  | 3 => some 10
  | 4 => some 10
  | _ => none

/-- Trace of the frame loop of `read_id3v2_body` (lines 432-446).  The
external frame readers are abstracted by `frames`: the number of bytes each
successive successful frame read consumes from the bounded stream (when the
list is exhausted, or the next frame would need more bytes than remain, the
frame reader fails and the loop aborts by propagating its error).  The
result records the bounded stream's remaining byte count at each invocation
of a frame reader, in order: the loop body always invokes the reader first
and only then checks `bytes_available() < min_frame_size`. -/
def frame_loop_trace (mfs : Nat) : List Nat → Nat → List Nat
  | [], remaining => [remaining]
  | c :: fs, remaining =>
    remaining ::
      (if c ≤ remaining ∧ ¬(remaining - c < mfs) then frame_loop_trace mfs fs (remaining - c)
       else [])

/-- Invocation trace of the frame loop of `read_id3v2_body` for a tag with
the given major version and `remaining` bytes left in the bounded stream at
loop entry; `none` when `min_frame_size` panics (major version outside
2..4). -/
def read_id3v2_body_trace (major : Nat) (frames : List Nat) (remaining : Nat) :
    Option (List Nat) :=
  match min_frame_size major with
  | none => none
  | some mfs => some (frame_loop_trace mfs frames remaining)

/- =====================  theorems  ===================== -/

theorem syncsafeLoop_step (bw b : Nat) (rest : List Nat) (br r : Nat) (h : br < bw) :
    syncsafeLoop bw (b :: rest) br r =
      syncsafeLoop bw rest (br + 7)
        ((r ||| ((b &&& 127) <<< (((bw + 4294967296 - (br + 7)) % 4294967296) % 32)))
          % 4294967296) := by
  rw [syncsafeLoop.eq_def]
  simp [h]

theorem syncsafeLoop_stop (bw : Nat) (l : List Nat) (br r : Nat) (h : ¬ br < bw) :
    syncsafeLoop bw l br r = some (r, l) := by
  rw [syncsafeLoop.eq_def]
  simp [h]

/-- A 28-bit syncsafe read consumes exactly four bytes and computes
`ss28` on them. -/
theorem read_syncsafe_leq32_cons4 (s1 s2 s3 s4 : Nat) (t : List Nat) :
    read_syncsafe_leq32 (s1 :: s2 :: s3 :: s4 :: t) 28 = some (ss28 s1 s2 s3 s4, t) := by
  simp only [read_syncsafe_leq32, ss28]
  rw [syncsafeLoop_step 28 s1 _ 0 0 (by norm_num),
    syncsafeLoop_step 28 s2 _ 7 _ (by norm_num),
    syncsafeLoop_step 28 s3 _ 14 _ (by norm_num),
    syncsafeLoop_step 28 s4 _ 21 _ (by norm_num),
    syncsafeLoop_stop 28 t 28 _ (by norm_num)]

theorem getLastD_cons_cons (a b d : Nat) (t : List Nat) :
    (a :: b :: t).getLastD d = (b :: t).getLastD d := by
  simp [List.getLastD_eq_getLast?, List.getLast?_cons_cons]


theorem streamOut_nil (last : Nat) : streamOut last [] = [] := rfl

theorem streamOut_cons_ne (last b : Nat) (rest : List Nat) (h : ¬(last = 255 ∧ b = 0)) :
    streamOut last (b :: rest) = b :: streamOut b rest := by
  rw [streamOut.eq_def]
  simp [h]

theorem streamOut_ff00_nil : streamOut 255 [0] = [] := by
  rw [streamOut.eq_def]
  simp

theorem streamOut_ff00_cons (c : Nat) (r2 : List Nat) :
    streamOut 255 (0 :: c :: r2) = c :: streamOut c r2 := by
  rw [streamOut.eq_def]
  simp

theorem unsyncCore_cons2_pos (a b : Nat) (t : List Nat) (h : a = 255 ∧ b = 0) :
    unsyncCore (a :: b :: t) = a :: unsyncCore t := by
  rw [unsyncCore.eq_def]
  simp [h.1, h.2]

theorem unsyncCore_cons2_neg (a b : Nat) (t : List Nat) (h : ¬(a = 255 ∧ b = 0)) :
    unsyncCore (a :: b :: t) = a :: unsyncCore (b :: t) := by
  rw [unsyncCore.eq_def]
  simp [h]


/-- A successful `read_byte` peels exactly one byte off the reference
decoded stream. -/
theorem read_byte_streamOut (s : UState) (v : Nat) (s1 : UState)
    (h : UnsyncStream.read_byte s = some (v, s1)) :
    streamOut s.byte s.raw = v :: streamOut s1.byte s1.raw := by
  rcases s with ⟨last, raw⟩
  cases raw with
  | nil => simp [UnsyncStream.read_byte] at h
  | cons b rest =>
    by_cases hc : last = 255 ∧ b = 0
    · cases rest with
      | nil => simp [UnsyncStream.read_byte, hc] at h
      | cons c r2 =>
        simp only [UnsyncStream.read_byte, if_pos hc, Option.some.injEq, Prod.mk.injEq] at h
        obtain ⟨hv, hs⟩ := h
        subst hv
        subst hs
        obtain ⟨h1, h2⟩ := hc
        subst h1
        subst h2
        exact streamOut_ff00_cons c r2
    · simp only [UnsyncStream.read_byte, if_neg hc, Option.some.injEq, Prod.mk.injEq] at h
      obtain ⟨hv, hs⟩ := h
      subst hv
      subst hs
      exact streamOut_cons_ne last b rest hc

/-- A successful `topUp n` peels `n` bytes off the reference decoded
stream. -/
theorem topUp_streamOut : ∀ (n : Nat) (s : UState) (vs : List Nat) (s2 : UState),
    UnsyncStream.topUp n s = some (vs, s2) →
    streamOut s.byte s.raw = vs ++ streamOut s2.byte s2.raw := by
  intro n
  induction n with
  | zero =>
    intro s vs s2 h
    simp only [UnsyncStream.topUp, Option.some.injEq, Prod.mk.injEq] at h
    obtain ⟨hv, hs⟩ := h
    subst hv
    subst hs
    simp
  | succ m ih =>
    intro s vs s2 h
    cases h1 : UnsyncStream.read_byte s with
    | none =>
      simp only [UnsyncStream.topUp, h1] at h
      exact Option.noConfusion h
    | some p =>
      obtain ⟨v, s1⟩ := p
      cases h2 : UnsyncStream.topUp m s1 with
      | none =>
        simp only [UnsyncStream.topUp, h1, h2] at h
        exact Option.noConfusion h
      | some q =>
        obtain ⟨ws, s3⟩ := q
        simp only [UnsyncStream.topUp, h1, h2, Option.some.injEq, Prod.mk.injEq] at h
        obtain ⟨hv, hs⟩ := h
        subst hv
        subst hs
        rw [read_byte_streamOut _ _ _ h1, ih _ _ _ h2]
        rfl

/-- Core compaction agreement: streaming across a non-empty chunk followed
by `rest` decodes the chunk with the one-shot compaction loop and then
continues streaming from the chunk's last raw byte, provided the chunk's
first byte is not a stuffed zero relative to `last`. -/
theorem unsyncCore_append : ∀ (chunk : List Nat) (last : Nat) (rest : List Nat),
    chunk ≠ [] → ¬(last = 255 ∧ chunk.headD 0 = 0) →
    streamOut last (chunk ++ rest) =
      unsyncCore chunk ++ streamOut (chunk.getLastD 0) rest := by
  intro chunk
  induction chunk using unsyncCore.induct with
  | case1 =>
    intro last rest h
    exact absurd rfl h
  | case2 a =>
    intro last rest _ hcond
    simp only [List.headD_cons] at hcond
    rw [List.singleton_append, streamOut_cons_ne last a rest hcond]
    rfl
  | case3 a b t hpair ih =>
    intro last rest _ hcond
    obtain ⟨ha, hb⟩ := hpair
    subst ha
    subst hb
    simp only [List.headD_cons] at hcond
    rw [List.cons_append, List.cons_append,
      streamOut_cons_ne last 255 (0 :: (t ++ rest)) hcond,
      unsyncCore_cons2_pos 255 0 t ⟨rfl, rfl⟩, getLastD_cons_cons]
    cases t with
    | nil =>
      cases rest with
      | nil =>
        simp only [List.nil_append, List.append_nil]
        rw [streamOut_ff00_nil]
        rfl
      | cons c r2 =>
        simp only [List.nil_append]
        rw [streamOut_ff00_cons c r2]
        rw [show ((0 : Nat) :: ([] : List Nat)).getLastD 0 = 0 by rfl]
        have hne : ¬((0 : Nat) = 255 ∧ c = 0) := by omega
        rw [streamOut_cons_ne 0 c r2 hne]
        rfl
    | cons c t2 =>
      rw [show (0 : Nat) :: ((c :: t2) ++ rest) = 0 :: c :: (t2 ++ rest) by rfl,
        streamOut_ff00_cons c (t2 ++ rest)]
      have hne : ¬(c = 255 ∧ (c :: t2).headD 0 = 0) := by
        simp only [List.headD_cons]
        omega
      have hih := ih c rest (by simp) hne
      have hcc : ¬(c = 255 ∧ c = 0) := by omega
      rw [List.cons_append, streamOut_cons_ne c c (t2 ++ rest) hcc] at hih
      rw [getLastD_cons_cons 0 c 0 t2, hih]
      rfl
  | case4 a b t hpair ih =>
    intro last rest _ hcond
    simp only [List.headD_cons] at hcond
    rw [List.cons_append, streamOut_cons_ne last a ((b :: t) ++ rest) hcond]
    have hne : ¬(a = 255 ∧ (b :: t).headD 0 = 0) := by
      simp only [List.headD_cons]
      exact hpair
    have hih := ih a rest (by simp) hne
    rw [hih, unsyncCore_cons2_neg a b t hpair, getLastD_cons_cons]
    rfl

theorem getLastD_cons_zero (t : List Nat) : (0 :: t).getLastD 0 = t.getLastD 0 := by
  cases t with
  | nil => rfl
  | cons b t2 => exact getLastD_cons_cons 0 b 0 t2

/-- Streaming from state `0xff` over input starting with a stuffed `0x00`
drops that zero. -/
theorem streamOut_drop (xs : List Nat) : streamOut 255 (0 :: xs) = streamOut 0 xs := by
  cases xs with
  | nil => rw [streamOut_ff00_nil]; rfl
  | cons c r2 =>
    have hne : ¬((0 : Nat) = 255 ∧ c = 0) := by omega
    rw [streamOut_ff00_cons c r2, streamOut_cons_ne 0 c r2 hne]

/-- `unsyncCore_append` specialised to carry byte `0`, where it also holds
for the empty chunk. -/
theorem unsyncCore_append_zero (t rest : List Nat) :
    streamOut 0 (t ++ rest) = unsyncCore t ++ streamOut (t.getLastD 0) rest := by
  cases t with
  | nil => rfl
  | cons b t2 =>
    exact unsyncCore_append (b :: t2) 0 rest (by simp)
      (by rintro ⟨hw, _⟩; exact absurd hw (by decide))

theorem topUp_streamOut2 (n b : Nat) (raw vs : List Nat) (s2 : UState)
    (h : UnsyncStream.topUp n ⟨b, raw⟩ = some (vs, s2)) :
    streamOut b raw = vs ++ streamOut s2.byte s2.raw :=
  topUp_streamOut n ⟨b, raw⟩ vs s2 h

/-- A successful `read_buf_bytes n` peels its decoded output off the
reference decoded stream. -/
theorem read_buf_bytes_streamOut (n : Nat) (s : UState) (vs : List Nat) (s2 : UState)
    (h : UnsyncStream.read_buf_bytes n s = some (vs, s2)) :
    streamOut s.byte s.raw = vs ++ streamOut s2.byte s2.raw := by
  by_cases h0 : n = 0
  · subst h0
    simp only [UnsyncStream.read_buf_bytes, if_pos rfl, Option.some.injEq, Prod.mk.injEq] at h
    obtain ⟨rfl, rfl⟩ := h
    simp
  · by_cases hlen : s.raw.length < n
    · simp only [UnsyncStream.read_buf_bytes, if_neg h0, if_pos hlen] at h
      exact Option.noConfusion h
    · have hlen2 : (s.raw.take n).length = n := by
        rw [List.length_take]
        omega
      simp only [UnsyncStream.read_buf_bytes, if_neg h0, if_neg hlen] at h
      rw [show streamOut s.byte s.raw =
            streamOut s.byte (s.raw.take n ++ s.raw.drop n) by
          rw [List.take_append_drop]]
      by_cases hc : s.byte = 255 ∧ (s.raw.take n).headD 0 = 0
      · rw [if_pos hc] at h
        obtain ⟨hb, hh⟩ := hc
        cases htop : UnsyncStream.topUp
            (n - (unsyncCore ((s.raw.take n).drop 1)).length)
            ⟨(s.raw.take n).getLastD 0, s.raw.drop n⟩ with
        | none =>
          rw [htop] at h
          exact Option.noConfusion h
        | some p =>
          obtain ⟨extra, s3⟩ := p
          rw [htop] at h
          simp only [Option.some.injEq, Prod.mk.injEq] at h
          obtain ⟨hv, hs⟩ := h
          subst hv
          subst hs
          cases hch : s.raw.take n with
          | nil =>
            rw [hch] at hlen2
            simp at hlen2
            exact absurd hlen2.symm h0
          | cons hd t =>
            have hhd : hd = 0 := by
              rw [hch] at hh
              simpa using hh
            subst hhd
            rw [hch] at htop
            rw [hb, List.cons_append, streamOut_drop,
              unsyncCore_append_zero t (s.raw.drop n)]
            rw [getLastD_cons_zero] at htop
            have h5 := topUp_streamOut2 _ _ _ _ _ htop
            rw [h5]
            simp
      · rw [if_neg hc] at h
        cases htop : UnsyncStream.topUp
            (n - (unsyncCore ((s.raw.take n).drop 0)).length)
            ⟨(s.raw.take n).getLastD 0, s.raw.drop n⟩ with
        | none =>
          rw [htop] at h
          exact Option.noConfusion h
        | some p =>
          obtain ⟨extra, s3⟩ := p
          rw [htop] at h
          simp only [Option.some.injEq, Prod.mk.injEq] at h
          obtain ⟨hv, hs⟩ := h
          subst hv
          subst hs
          have hne : s.raw.take n ≠ [] := by
            intro hnil
            rw [hnil] at hlen2
            exact h0 hlen2.symm
          rw [unsyncCore_append (s.raw.take n) s.byte (s.raw.drop n) hne hc]
          have h5 := topUp_streamOut2 _ _ _ _ _ htop
          rw [List.drop_zero]
          rw [h5]
          simp

/-- Any successful sequence of single-byte and bulk reads peels its
concatenated decoded output off the reference decoded stream. -/
theorem runOps_streamOut : ∀ (ops : List ReadOp) (s : UState) (vs : List Nat) (s2 : UState),
    runOps ops s = some (vs, s2) →
    streamOut s.byte s.raw = vs ++ streamOut s2.byte s2.raw := by
  intro ops
  induction ops with
  | nil =>
    intro s vs s2 h
    simp only [runOps, Option.some.injEq, Prod.mk.injEq] at h
    obtain ⟨rfl, rfl⟩ := h
    simp
  | cons op rest ih =>
    intro s vs s2 h
    cases op with
    | single =>
      cases h1 : UnsyncStream.read_byte s with
      | none =>
        simp only [runOps, h1] at h
        exact Option.noConfusion h
      | some p =>
        obtain ⟨v, s1⟩ := p
        cases h2 : runOps rest s1 with
        | none =>
          simp only [runOps, h1, h2] at h
          exact Option.noConfusion h
        | some q =>
          obtain ⟨ws, s3⟩ := q
          simp only [runOps, h1, h2, Option.some.injEq, Prod.mk.injEq] at h
          obtain ⟨rfl, rfl⟩ := h
          rw [read_byte_streamOut _ _ _ h1, ih _ _ _ h2]
          rfl
    | bulk n =>
      cases h1 : UnsyncStream.read_buf_bytes n s with
      | none =>
        simp only [runOps, h1] at h
        exact Option.noConfusion h
      | some p =>
        obtain ⟨ws, s1⟩ := p
        cases h2 : runOps rest s1 with
        | none =>
          simp only [runOps, h1, h2] at h
          exact Option.noConfusion h
        | some q =>
          obtain ⟨xs, s3⟩ := q
          simp only [runOps, h1, h2, Option.some.injEq, Prod.mk.injEq] at h
          obtain ⟨rfl, rfl⟩ := h
          rw [read_buf_bytes_streamOut _ _ _ _ h1, ih _ _ _ h2]
          rw [List.append_assoc]

theorem runOps_streamOut2 (ops : List ReadOp) (b0 : Nat) (raw vs : List Nat) (s2 : UState)
    (h : runOps ops ⟨b0, raw⟩ = some (vs, s2)) :
    streamOut b0 raw = vs ++ streamOut s2.byte s2.raw :=
  runOps_streamOut ops ⟨b0, raw⟩ vs s2 h

/-- When the carry byte is not `0xff`, streaming the whole input equals the
one-shot compaction of it. -/
theorem streamOut_eq_unsyncCore (raw : List Nat) (last : Nat) (h : ¬ last = 255) :
    streamOut last raw = unsyncCore raw := by
  cases raw with
  | nil => rfl
  | cons b t =>
    have h2 := unsyncCore_append (b :: t) last [] (by simp)
      (by rintro ⟨hw, _⟩; exact h hw)
    rw [List.append_nil] at h2
    rw [h2, streamOut_nil, List.append_nil]

/-- Claim C1 fails at the empty input: consuming the empty raw byte
sequence with the empty sequence of reads yields concatenated output `[]`,
but the one-shot `decode_unsynchronisation` has no output on the empty
buffer (it panics on the wrapped `len - 1` loop bound). -/
theorem C1_empty_input_cex :
    runOps [] ⟨0, []⟩ = some ([], ⟨0, []⟩) ∧
      decode_unsynchronisation [] ≠ some [] := by
  constructor
  · rfl
  · decide

/-- Claim C1 (amended: non-empty raw input): for every non-empty raw byte
sequence and every way of splitting its full consumption into a sequence of
`read_byte` and `read_buf_bytes` calls, in any combination, the
concatenated decoded output equals the output of the one-shot
unsynchronisation transform applied to the whole raw input. -/
theorem C1_streaming_matches_oneshot :
    ∀ (raw : List Nat) (ops : List ReadOp) (out : List Nat) (b : Nat),
      raw ≠ [] → runOps ops ⟨0, raw⟩ = some (out, ⟨b, []⟩) →
      decode_unsynchronisation raw = some out := by
  intro raw ops out b hraw h
  have h1 := runOps_streamOut2 ops 0 raw out ⟨b, []⟩ h
  rw [show (⟨b, []⟩ : UState).byte = b from rfl,
    show (⟨b, []⟩ : UState).raw = [] from rfl, streamOut_nil, List.append_nil] at h1
  have h2 := streamOut_eq_unsyncCore raw 0 (by decide)
  cases raw with
  | nil => exact absurd rfl hraw
  | cons x t =>
    show some (unsyncCore (x :: t)) = some out
    rw [← h2, h1]

/-- Witness for C1: a concrete mixed bulk/single split of a stuffed input. -/
theorem C1_streaming_matches_oneshot_witness :
    runOps [ReadOp.bulk 1, ReadOp.single] ⟨0, [255, 0, 5]⟩ =
        some ([255, 5], ⟨5, []⟩) ∧
      decode_unsynchronisation [255, 0, 5] = some [255, 5] :=
  ⟨by decide,
    C1_streaming_matches_oneshot [255, 0, 5] [ReadOp.bulk 1, ReadOp.single] [255, 5] 5
      (by decide) (by decide)⟩

theorem hasFF00_cons2 (a b : Nat) (t : List Nat) :
    hasFF00 (a :: b :: t) = ((a == 255 && b == 0) || hasFF00 (b :: t)) := rfl

/-- A buffer without adjacent `0xff, 0x00` bytes is untouched by the
compaction loop. -/
theorem unsyncCore_id_of_no_ff00 : ∀ l : List Nat, hasFF00 l = false → unsyncCore l = l := by
  intro l
  induction l using unsyncCore.induct with
  | case1 => intro _; rfl
  | case2 a => intro _; rfl
  | case3 a b t hpair ih =>
    intro hno
    rw [hasFF00_cons2] at hno
    obtain ⟨ha, hb⟩ := hpair
    subst ha
    subst hb
    simp at hno
  | case4 a b t hpair ih =>
    intro hno
    rw [hasFF00_cons2] at hno
    simp only [Bool.or_eq_false_iff] at hno
    rw [unsyncCore_cons2_neg a b t hpair, ih hno.2]

/-- Claim C9 fails at the empty buffer: it contains no `0xff, 0x00` pair,
yet the one-shot decode does not return it unchanged (the source panics on
an empty buffer). -/
theorem C9_empty_cex :
    hasFF00 [] = false ∧ decode_unsynchronisation [] ≠ some [] := by
  constructor
  · rfl
  · decide

/-- Claim C9 (amended: non-empty buffers): for every non-empty buffer that
contains no `0xff, 0x00` byte pair, the one-shot unsynchronisation decode
returns the input unchanged, so applying the decode twice also returns the
input unchanged. -/
theorem C9_idempotent_nonempty :
    ∀ l : List Nat, l ≠ [] → hasFF00 l = false →
      decode_unsynchronisation l = some l ∧
        (decode_unsynchronisation l).bind decode_unsynchronisation = some l := by
  intro l hne hno
  have h1 : decode_unsynchronisation l = some l := by
    cases l with
    | nil => exact absurd rfl hne
    | cons a t =>
      show some (unsyncCore (a :: t)) = some (a :: t)
      rw [unsyncCore_id_of_no_ff00 (a :: t) hno]
  refine ⟨h1, ?_⟩
  rw [h1]
  exact h1

/-- Witness for C9 at the pair-free buffer `[1, 255, 1]`. -/
theorem C9_idempotent_nonempty_witness :
    decode_unsynchronisation [1, 255, 1] = some [1, 255, 1] ∧
      (decode_unsynchronisation [1, 255, 1]).bind decode_unsynchronisation =
        some [1, 255, 1] :=
  C9_idempotent_nonempty [1, 255, 1] (by decide) (by decide)

/-- The compaction loop never lengthens the buffer. -/
theorem unsyncCore_length_le : ∀ l : List Nat, (unsyncCore l).length ≤ l.length := by
  intro l
  induction l using unsyncCore.induct with
  | case1 => simp [unsyncCore]
  | case2 a => simp [unsyncCore]
  | case3 a b t hpair ih =>
    rw [unsyncCore_cons2_pos a b t hpair]
    simp only [List.length_cons] at ih ⊢
    omega
  | case4 a b t hpair ih =>
    rw [unsyncCore_cons2_neg a b t hpair]
    simp only [List.length_cons] at ih ⊢
    omega

/-- The compaction of a non-empty buffer starts with the buffer's first
byte (in particular it is non-empty). -/
theorem unsyncCore_cons_ex (a : Nat) (t : List Nat) :
    ∃ u, unsyncCore (a :: t) = a :: u := by
  cases t with
  | nil => exact ⟨[], rfl⟩
  | cons b t2 =>
    by_cases hpair : a = 255 ∧ b = 0
    · exact ⟨unsyncCore t2, unsyncCore_cons2_pos a b t2 hpair⟩
    · exact ⟨unsyncCore (b :: t2), unsyncCore_cons2_neg a b t2 hpair⟩

/-- Claim C10: `decode_unsynchronisation` is total only on non-empty
buffers (the empty buffer panics, modelled as `none`); on every buffer of
length at least 1 it returns an output of length between 1 and the input
length. -/
theorem C10_decode_total_nonempty :
    decode_unsynchronisation [] = none ∧
      ∀ l : List Nat, 1 ≤ l.length →
        ∃ out, decode_unsynchronisation l = some out ∧
          1 ≤ out.length ∧ out.length ≤ l.length := by
  constructor
  · rfl
  · intro l hlen
    cases l with
    | nil => simp at hlen
    | cons a t =>
      refine ⟨unsyncCore (a :: t), rfl, ?_, unsyncCore_length_le (a :: t)⟩
      obtain ⟨u, hu⟩ := unsyncCore_cons_ex a t
      rw [hu]
      simp

/-- Witness for C10 at the buffer `[255, 0]`. -/
theorem C10_decode_total_nonempty_witness :
    ∃ out, decode_unsynchronisation [255, 0] = some out ∧
      1 ≤ out.length ∧ out.length ≤ ([255, 0] : List Nat).length :=
  C10_decode_total_nonempty.2 [255, 0] (by decide)

/-- Claim C2, evaluation of the code at the failing input (code bug): at
`bit_width = 32` the fifth loop iteration computes the shift amount
`32 - 35`, which underflows `u32`; with release-mode wrapping the masked
shift amount is 29, so the fifth byte's low bits land in the top bits
instead of the low bits.  On bytes `[0,0,0,0,1]` the code yields
`0x20000000` while the spec's most-significant-group-first accumulation
yields `1`; both consume exactly 5 bytes.  (With debug assertions the
subtraction overflow panics outright.) -/
theorem C2_syncsafe32_bug_eval :
    read_syncsafe_leq32 [0, 0, 0, 0, 1] 32 = some (536870912, []) ∧
      read_syncsafe_spec [0, 0, 0, 0, 1] 32 = some (1, []) ∧
      read_syncsafe_leq32 [0, 0, 0, 0, 1] 32 ≠ read_syncsafe_spec [0, 0, 0, 0, 1] 32 := by
  refine ⟨by decide, by decide, by decide⟩

/-- Claim C3, evaluation of the code at the failing input (code bug):
`ignore_bytes` reads raw bytes from the inner stream (`inner.read_byte()`)
and leaves the last-observed-byte state untouched.  Skipping one byte of
the raw stream `[0xFF, 0x00, 0x07]` from the initial state therefore leaves
state byte `0`, and the next decoded read returns the stuffed `0x00`;
the spec-modelled decoded skip leaves state `0xFF`, and the next decoded
read elides the stuffed zero and returns `0x07`. -/
theorem C3_ignore_bytes_raw_skip_eval :
    UnsyncStream.ignore_bytes 1 ⟨0, [255, 0, 7]⟩ = some ⟨0, [0, 7]⟩ ∧
      UnsyncStream.read_byte ⟨0, [0, 7]⟩ = some (0, ⟨0, [7]⟩) ∧
      ignore_bytes_decoded 1 ⟨0, [255, 0, 7]⟩ = some ⟨255, [0, 7]⟩ ∧
      UnsyncStream.read_byte ⟨255, [0, 7]⟩ = some (7, ⟨7, []⟩) := by
  refine ⟨by decide, by decide, by decide, by decide⟩

/-- Claim C5, evaluation of the code at the failing input (code bug): for
the restrictions byte `0x40` the text-encoding match scrutinee is
`(0x40 & 0x40) >> 5 = 2`, which hits the `unreachable!()` arm and panics,
so the restrictions decoding is not total; byte `0x00` decodes fine. -/
theorem C5_restrictions_panic_eval :
    decode_restrictions 64 = none ∧
      decode_restrictions 0 =
        some { tag_size := TagSizeRestriction.Max128Frames1024KiB,
               text_encoding := TextEncodingRestriction.None,
               text_field_size := TextFieldSize.None,
               image_encoding := ImageEncodingRestriction.None,
               image_size := ImageSizeRestriction.None } := by
  refine ⟨by decide, by decide⟩

theorem frame_loop_trace_head (mfs : Nat) (frames : List Nat) (remaining : Nat) :
    ∃ t, frame_loop_trace mfs frames remaining = remaining :: t := by
  cases frames with
  | nil => exact ⟨[], rfl⟩
  | cons c fs => exact ⟨_, rfl⟩

/-- Every frame-reader invocation after the first happens with at least
`mfs` bytes remaining, because the loop stops as soon as the post-read
check sees fewer. -/
theorem frame_loop_trace_tail_ge (mfs : Nat) :
    ∀ (frames : List Nat) (remaining x : Nat),
      x ∈ (frame_loop_trace mfs frames remaining).tail → mfs ≤ x := by
  intro frames
  induction frames with
  | nil =>
    intro remaining x hx
    simp [frame_loop_trace] at hx
  | cons c fs ih =>
    intro remaining x hx
    simp only [frame_loop_trace, List.tail_cons] at hx
    by_cases hcond : c ≤ remaining ∧ ¬(remaining - c < mfs)
    · rw [if_pos hcond] at hx
      obtain ⟨t, ht⟩ := frame_loop_trace_head mfs fs (remaining - c)
      rw [ht] at hx
      rcases List.mem_cons.mp hx with h1 | h2
      · subst h1
        omega
      · apply ih (remaining - c) x
        rw [ht]
        simpa using h2
    · rw [if_neg hcond] at hx
      simp at hx

/-- Claim C4 fails as stated: with a tag body of 0 remaining bytes and
major version 3 (minimum frame size 10), the loop still invokes the frame
reader once before any check, recording an invocation at remaining `0`,
which is below the minimum frame size. -/
theorem C4_first_frame_read_cex :
    read_id3v2_body_trace 3 [] 0 = some [0] ∧ (0 : Nat) < 10 := by
  refine ⟨rfl, by decide⟩

/-- Claim C4 (amended): the frame loop of `read_id3v2_body` checks the
bounded stream's remaining byte count only AFTER each frame read; the first
frame read is always attempted, and every invocation after the first
occurs with at least the version's minimum frame size (6 for major=2, 10
for major=3 or 4) remaining. -/
theorem C4_loop_check_after_each_read :
    ∀ (major mfs remaining : Nat) (frames trace : List Nat),
      min_frame_size major = some mfs →
      read_id3v2_body_trace major frames remaining = some trace →
      trace.headD 0 = remaining ∧ ∀ x ∈ trace.tail, mfs ≤ x := by
  intro major mfs remaining frames trace hmfs htrace
  unfold read_id3v2_body_trace at htrace
  rw [hmfs] at htrace
  simp only [Option.some.injEq] at htrace
  subst htrace
  constructor
  · obtain ⟨t, ht⟩ := frame_loop_trace_head mfs frames remaining
    rw [ht]
    rfl
  · exact frame_loop_trace_tail_ge mfs frames remaining

/-- Witness for C4 at major version 2 with two 6-byte frames in a 13-byte
body: the trace is `[13, 7]` and its tail respects the minimum frame
size 6. -/
theorem C4_loop_check_after_each_read_witness :
    ([13, 7] : List Nat).headD 0 = 13 ∧ ∀ x ∈ ([13, 7] : List Nat).tail, 6 ≤ x :=
  C4_loop_check_after_each_read 2 6 13 [6, 6] [13, 7] (by decide) (by decide)


theorem syncsafeLoop_nil (bw br r : Nat) (h : br < bw) :
    syncsafeLoop bw [] br r = none := by
  rw [syncsafeLoop.eq_def]
  simp [h]

/-- A 28-bit syncsafe read fails on fewer than four bytes. -/
theorem syncsafe28_short (l : List Nat) (h : l.length < 4) :
    read_syncsafe_leq32 l 28 = none := by
  rcases l with _ | ⟨x, _ | ⟨y, _ | ⟨z, _ | ⟨w, t⟩⟩⟩⟩
  · simp only [read_syncsafe_leq32]
    rw [syncsafeLoop_nil 28 0 0 (by norm_num)]
  · simp only [read_syncsafe_leq32]
    rw [syncsafeLoop_step 28 x [] 0 0 (by norm_num),
      syncsafeLoop_nil 28 7 _ (by norm_num)]
  · simp only [read_syncsafe_leq32]
    rw [syncsafeLoop_step 28 x _ 0 0 (by norm_num),
      syncsafeLoop_step 28 y [] 7 _ (by norm_num),
      syncsafeLoop_nil 28 14 _ (by norm_num)]
  · simp only [read_syncsafe_leq32]
    rw [syncsafeLoop_step 28 x _ 0 0 (by norm_num),
      syncsafeLoop_step 28 y _ 7 _ (by norm_num),
      syncsafeLoop_step 28 z [] 14 _ (by norm_num),
      syncsafeLoop_nil 28 21 _ (by norm_num)]
  · simp at h
    omega

/-- Normal form of the header decoder on an input of at least ten bytes:
the classification if-chain of claim C6. -/
theorem read_id3v2_header_eq (a b c maj minr fl s1 s2 s3 s4 : Nat) (rest : List Nat) :
    read_id3v2_header (a :: b :: c :: maj :: minr :: fl :: s1 :: s2 :: s3 :: s4 :: rest) =
      if ¬(a = 73 ∧ b = 68 ∧ c = 51) then Id3Result.unsupportedErr
      else if maj = 255 ∨ minr = 255 then Id3Result.decodeErr
      else if maj < 2 ∨ maj > 4 then Id3Result.unsupportedErr
      else if maj = 2 ∧ fl &&& 64 ≠ 0 then Id3Result.unsupportedErr
      else Id3Result.ok
        ({ major_version := maj,
           minor_version := minr,
           size := ss28 s1 s2 s3 s4,
           unsynchronisation := fl &&& 128 != 0,
           has_extended_header := decide (3 ≤ maj) && (fl &&& 64 != 0),
           experimental := decide (3 ≤ maj) && (fl &&& 32 != 0),
           has_footer := decide (4 ≤ maj) && (fl &&& 16 != 0) }, rest) := by
  simp only [read_id3v2_header, read_triple_bytes, read_u8, read_syncsafe_leq32_cons4]
  by_cases h1 : ¬(a = 73 ∧ b = 68 ∧ c = 51)
  · simp only [if_pos h1]
  · simp only [if_neg h1]
    by_cases h2 : maj = 255 ∨ minr = 255
    · simp only [if_pos h2]
    · simp only [if_neg h2]
      by_cases h3 : maj < 2 ∨ maj > 4
      · simp only [if_pos h3]
      · simp only [if_neg h3]
        by_cases h4 : maj = 2 ∧ fl &&& 64 ≠ 0
        · simp only [if_pos h4]
        · simp only [if_neg h4]
          have hm2 : 2 ≤ maj := by omega
          simp only [if_pos hm2]
          by_cases hm3 : 3 ≤ maj
          · by_cases hm4 : 4 ≤ maj
            · simp [if_pos hm3, if_pos hm4, hm3, hm4]
            · simp [if_pos hm3, if_neg hm4, hm3, hm4]
          · have hm4 : ¬ 4 ≤ maj := by omega
            simp [if_neg hm3, if_neg hm4, hm3, hm4]

/-- Claim C6: the header decoder reads magic, major version, minor version,
flags and the syncsafe 28-bit size in order, consuming exactly 10 bytes
(on success the remaining input is exactly the bytes after the first ten),
and classifies errors as: magic not "ID3" (73,68,51) gives Unsupported;
major or minor equal to 0xFF gives a Decode error; major outside [2,4]
gives Unsupported; major 2 with flag bit 0x40 gives Unsupported; otherwise
it returns the Header with those fields, the size being the syncsafe value
of the four size bytes. -/
theorem C6_header_classification :
    ∀ (a b c maj minr fl s1 s2 s3 s4 : Nat) (rest : List Nat),
      (¬(a = 73 ∧ b = 68 ∧ c = 51) →
        read_id3v2_header (a :: b :: c :: maj :: minr :: fl :: s1 :: s2 :: s3 :: s4 :: rest) =
          Id3Result.unsupportedErr) ∧
      ((a = 73 ∧ b = 68 ∧ c = 51) → (maj = 255 ∨ minr = 255) →
        read_id3v2_header (a :: b :: c :: maj :: minr :: fl :: s1 :: s2 :: s3 :: s4 :: rest) =
          Id3Result.decodeErr) ∧
      ((a = 73 ∧ b = 68 ∧ c = 51) → ¬(maj = 255 ∨ minr = 255) → (maj < 2 ∨ maj > 4) →
        read_id3v2_header (a :: b :: c :: maj :: minr :: fl :: s1 :: s2 :: s3 :: s4 :: rest) =
          Id3Result.unsupportedErr) ∧
      ((a = 73 ∧ b = 68 ∧ c = 51) → ¬(maj = 255 ∨ minr = 255) → ¬(maj < 2 ∨ maj > 4) →
        (maj = 2 ∧ fl &&& 64 ≠ 0) →
        read_id3v2_header (a :: b :: c :: maj :: minr :: fl :: s1 :: s2 :: s3 :: s4 :: rest) =
          Id3Result.unsupportedErr) ∧
      ((a = 73 ∧ b = 68 ∧ c = 51) → ¬(maj = 255 ∨ minr = 255) → ¬(maj < 2 ∨ maj > 4) →
        ¬(maj = 2 ∧ fl &&& 64 ≠ 0) →
        read_id3v2_header (a :: b :: c :: maj :: minr :: fl :: s1 :: s2 :: s3 :: s4 :: rest) =
          Id3Result.ok
            ({ major_version := maj,
               minor_version := minr,
               size := ss28 s1 s2 s3 s4,
               unsynchronisation := fl &&& 128 != 0,
               has_extended_header := decide (3 ≤ maj) && (fl &&& 64 != 0),
               experimental := decide (3 ≤ maj) && (fl &&& 32 != 0),
               has_footer := decide (4 ≤ maj) && (fl &&& 16 != 0) }, rest) ∧
          read_syncsafe_leq32 [s1, s2, s3, s4] 28 = some (ss28 s1 s2 s3 s4, [])) := by
  intro a b c maj minr fl s1 s2 s3 s4 rest
  refine ⟨?_, ?_, ?_, ?_, ?_⟩
  · intro h1
    rw [read_id3v2_header_eq, if_pos h1]
  · intro h1 h2
    rw [read_id3v2_header_eq, if_neg (not_not_intro h1), if_pos h2]
  · intro h1 h2 h3
    rw [read_id3v2_header_eq, if_neg (not_not_intro h1), if_neg h2, if_pos h3]
  · intro h1 h2 h3 h4
    rw [read_id3v2_header_eq, if_neg (not_not_intro h1), if_neg h2, if_neg h3, if_pos h4]
  · intro h1 h2 h3 h4
    refine ⟨?_, read_syncsafe_leq32_cons4 s1 s2 s3 s4 []⟩
    rw [read_id3v2_header_eq, if_neg (not_not_intro h1), if_neg h2, if_neg h3, if_neg h4]

/-- Witness for C6: the spec's own example header "ID3", version 3.0,
flags 0, syncsafe size bytes [0,0,7,57] (value 953), followed by no body:
success with exactly the ten bytes consumed. -/
theorem C6_header_classification_witness :
    read_id3v2_header [73, 68, 51, 3, 0, 0, 0, 0, 7, 57] =
      Id3Result.ok
        ({ major_version := 3,
           minor_version := 0,
           size := 953,
           unsynchronisation := false,
           has_extended_header := false,
           experimental := false,
           has_footer := false }, []) ∧
      read_syncsafe_leq32 [0, 0, 7, 57] 28 = some (953, []) :=
  (C6_header_classification 73 68 51 3 0 0 0 0 7 57 []).2.2.2.2
    (by decide) (by decide) (by decide) (by decide)

/-- Claim C7: for every successfully decoded Header, each flag boolean is
true only if its bit is defined for the tag's major version
(unsynchronisation for major at least 2, extended header and experimental
for major at least 3, footer for major at least 4); moreover, with a valid
magic, valid versions and no v2.2 compression bit, the header decoder
succeeds whatever the remaining flag bits are — an undefined bit is never
surfaced and never causes an error. -/
theorem C7_flag_gating :
    (∀ (l : List Nat) (hd : Header) (rest : List Nat),
      read_id3v2_header l = Id3Result.ok (hd, rest) →
      2 ≤ hd.major_version ∧ hd.major_version ≤ 4 ∧
        (hd.unsynchronisation = true → 2 ≤ hd.major_version) ∧
        (hd.has_extended_header = true → 3 ≤ hd.major_version) ∧
        (hd.experimental = true → 3 ≤ hd.major_version) ∧
        (hd.has_footer = true → 4 ≤ hd.major_version)) ∧
    (∀ (maj minr fl s1 s2 s3 s4 : Nat) (rest : List Nat),
      ¬(maj = 255 ∨ minr = 255) → 2 ≤ maj → maj ≤ 4 → (maj = 2 → fl &&& 64 = 0) →
      ∃ hd, read_id3v2_header
          (73 :: 68 :: 51 :: maj :: minr :: fl :: s1 :: s2 :: s3 :: s4 :: rest) =
        Id3Result.ok (hd, rest)) := by
  constructor
  · intro l hd rest heq
    rcases l with _ | ⟨a, _ | ⟨b, _ | ⟨c, _ | ⟨maj, _ | ⟨minr, _ | ⟨fl,
      _ | ⟨s1, _ | ⟨s2, _ | ⟨s3, _ | ⟨s4, rest2⟩⟩⟩⟩⟩⟩⟩⟩⟩⟩
    · simp [read_id3v2_header, read_triple_bytes] at heq
    · simp [read_id3v2_header, read_triple_bytes] at heq
    · simp [read_id3v2_header, read_triple_bytes] at heq
    · simp only [read_id3v2_header, read_triple_bytes, read_u8] at heq
      split_ifs at heq
    · simp only [read_id3v2_header, read_triple_bytes, read_u8] at heq
      split_ifs at heq
    · simp only [read_id3v2_header, read_triple_bytes, read_u8] at heq
      split_ifs at heq
    · simp only [read_id3v2_header, read_triple_bytes, read_u8,
        syncsafe28_short [] (by decide)] at heq
      split_ifs at heq
    · simp only [read_id3v2_header, read_triple_bytes, read_u8,
        syncsafe28_short [s1] (by simp)] at heq
      split_ifs at heq
    · simp only [read_id3v2_header, read_triple_bytes, read_u8,
        syncsafe28_short [s1, s2] (by simp)] at heq
      split_ifs at heq
    · simp only [read_id3v2_header, read_triple_bytes, read_u8,
        syncsafe28_short [s1, s2, s3] (by simp)] at heq
      split_ifs at heq
    · rw [read_id3v2_header_eq] at heq
      by_cases h1 : ¬(a = 73 ∧ b = 68 ∧ c = 51)
      · rw [if_pos h1] at heq
        exact Id3Result.noConfusion heq
      · rw [if_neg h1] at heq
        by_cases h2 : maj = 255 ∨ minr = 255
        · rw [if_pos h2] at heq
          exact Id3Result.noConfusion heq
        · rw [if_neg h2] at heq
          by_cases h3 : maj < 2 ∨ maj > 4
          · rw [if_pos h3] at heq
            exact Id3Result.noConfusion heq
          · rw [if_neg h3] at heq
            by_cases h4 : maj = 2 ∧ fl &&& 64 ≠ 0
            · rw [if_pos h4] at heq
              exact Id3Result.noConfusion heq
            · rw [if_neg h4] at heq
              simp only [Id3Result.ok.injEq, Prod.mk.injEq] at heq
              obtain ⟨hh, hr⟩ := heq
              subst hh
              dsimp only
              refine ⟨by omega, by omega, fun _ => by omega, ?_, ?_, ?_⟩
              · intro hx
                by_cases hm3 : 3 ≤ maj
                · exact hm3
                · simp [hm3] at hx
              · intro hx
                by_cases hm3 : 3 ≤ maj
                · exact hm3
                · simp [hm3] at hx
              · intro hx
                by_cases hm4 : 4 ≤ maj
                · exact hm4
                · simp [hm4] at hx
  · intro maj minr fl s1 s2 s3 s4 rest h255 hlo hhi hcomp
    refine ⟨{ major_version := maj,
              minor_version := minr,
              size := ss28 s1 s2 s3 s4,
              unsynchronisation := fl &&& 128 != 0,
              has_extended_header := decide (3 ≤ maj) && (fl &&& 64 != 0),
              experimental := decide (3 ≤ maj) && (fl &&& 32 != 0),
              has_footer := decide (4 ≤ maj) && (fl &&& 16 != 0) }, ?_⟩
    rw [read_id3v2_header_eq, if_neg (not_not_intro ⟨rfl, rfl, rfl⟩), if_neg h255,
      if_neg (by omega), if_neg ?_]
    rintro ⟨hq, hw⟩
    exact hw (hcomp hq)

/-- Witness for C7: major version 2 with raw flags 0x90 (bits 0x80 and
0x10): the decode succeeds, the unsynchronisation bit is surfaced, and the
footer bit (undefined before version 4) is not. -/
theorem C7_flag_gating_witness :
    2 ≤ (2 : Nat) ∧ (2 : Nat) ≤ 4 ∧
      (true = true → 2 ≤ (2 : Nat)) ∧
      (false = true → 3 ≤ (2 : Nat)) ∧
      (false = true → 3 ≤ (2 : Nat)) ∧
      (false = true → 4 ≤ (2 : Nat)) :=
  C7_flag_gating.1 [73, 68, 51, 2, 0, 144, 0, 0, 0, 0]
    { major_version := 2, minor_version := 0, size := 0,
      unsynchronisation := true, has_extended_header := false,
      experimental := false, has_footer := false } [] (by decide)

/-- Claim C8: in the v2.4 extended-header decoder every declared length
field that does not match its required constant (flag-length not 1,
is-update length not 1, CRC length not 5, restrictions length not 1) yields
a Decode error, and `is_update` is `some false` on success when flag bit
0x40 is unset and `some true` when it is set with length 1. -/
theorem C8_ext_header_lengths :
    ∀ (s1 s2 s3 s4 : Nat) (rest : List Nat),
      (∀ b, b ≠ 1 →
        read_id3v2p4_extended_header (s1 :: s2 :: s3 :: s4 :: b :: rest) =
          Id3Result.decodeErr) ∧
      (∀ flags len, flags &&& 64 = 64 → len ≠ 1 →
        read_id3v2p4_extended_header (s1 :: s2 :: s3 :: s4 :: 1 :: flags :: len :: rest) =
          Id3Result.decodeErr) ∧
      (∀ flags, flags &&& 64 ≠ 64 → flags &&& 32 ≠ 32 → flags &&& 16 ≠ 16 →
        read_id3v2p4_extended_header (s1 :: s2 :: s3 :: s4 :: 1 :: flags :: rest) =
          Id3Result.ok
            ({ padding_size := none, crc32 := none,
               is_update := some false, restrictions := none }, rest)) ∧
      (∀ flags, flags &&& 64 = 64 → flags &&& 32 ≠ 32 → flags &&& 16 ≠ 16 →
        read_id3v2p4_extended_header (s1 :: s2 :: s3 :: s4 :: 1 :: flags :: 1 :: rest) =
          Id3Result.ok
            ({ padding_size := none, crc32 := none,
               is_update := some true, restrictions := none }, rest)) ∧
      (∀ flags len, flags &&& 64 ≠ 64 → flags &&& 32 = 32 → len ≠ 5 →
        read_id3v2p4_extended_header (s1 :: s2 :: s3 :: s4 :: 1 :: flags :: len :: rest) =
          Id3Result.decodeErr) ∧
      (∀ flags len, flags &&& 64 ≠ 64 → flags &&& 32 ≠ 32 → flags &&& 16 = 16 → len ≠ 1 →
        read_id3v2p4_extended_header (s1 :: s2 :: s3 :: s4 :: 1 :: flags :: len :: rest) =
          Id3Result.decodeErr) := by
  intro s1 s2 s3 s4 rest
  refine ⟨?_, ?_, ?_, ?_, ?_, ?_⟩
  · intro b hb
    simp only [read_id3v2p4_extended_header, read_syncsafe_leq32_cons4, read_u8]
    rw [if_pos hb]
  · intro flags len hfl hlen
    simp only [read_id3v2p4_extended_header, read_syncsafe_leq32_cons4, read_u8,
      p4_ext_update_step]
    rw [if_neg (by simp), if_pos hfl, if_pos hlen]
  · intro flags h64 h32 h16
    simp only [read_id3v2p4_extended_header, read_syncsafe_leq32_cons4, read_u8,
      p4_ext_update_step, p4_ext_crc_step, p4_ext_restr_step]
    rw [if_neg (by simp), if_neg h64, if_neg h32, if_neg h16]
  · intro flags h64 h32 h16
    simp only [read_id3v2p4_extended_header, read_syncsafe_leq32_cons4, read_u8,
      p4_ext_update_step, p4_ext_crc_step, p4_ext_restr_step]
    rw [if_neg (by simp), if_pos h64, if_neg (by simp), if_neg h32, if_neg h16]
  · intro flags len h64 h32 hlen
    simp only [read_id3v2p4_extended_header, read_syncsafe_leq32_cons4, read_u8,
      p4_ext_update_step, p4_ext_crc_step]
    rw [if_neg (by simp), if_neg h64, if_pos h32, if_pos hlen]
  · intro flags len h64 h32 h16 hlen
    simp only [read_id3v2p4_extended_header, read_syncsafe_leq32_cons4, read_u8,
      p4_ext_update_step, p4_ext_crc_step, p4_ext_restr_step]
    rw [if_neg (by simp), if_neg h64, if_neg h32, if_pos h16, if_pos hlen]

/-- Witness for C8: one concrete input per clause (syncsafe size bytes all
zero). -/
theorem C8_ext_header_lengths_witness :
    read_id3v2p4_extended_header [0, 0, 0, 0, 2] = Id3Result.decodeErr ∧
      read_id3v2p4_extended_header [0, 0, 0, 0, 1, 64, 2] = Id3Result.decodeErr ∧
      read_id3v2p4_extended_header [0, 0, 0, 0, 1, 0] =
        Id3Result.ok
          ({ padding_size := none, crc32 := none,
             is_update := some false, restrictions := none }, []) ∧
      read_id3v2p4_extended_header [0, 0, 0, 0, 1, 64, 1] =
        Id3Result.ok
          ({ padding_size := none, crc32 := none,
             is_update := some true, restrictions := none }, []) ∧
      read_id3v2p4_extended_header [0, 0, 0, 0, 1, 32, 4] = Id3Result.decodeErr ∧
      read_id3v2p4_extended_header [0, 0, 0, 0, 1, 16, 2] = Id3Result.decodeErr :=
  ⟨(C8_ext_header_lengths 0 0 0 0 []).1 2 (by decide),
   (C8_ext_header_lengths 0 0 0 0 []).2.1 64 2 (by decide) (by decide),
   (C8_ext_header_lengths 0 0 0 0 []).2.2.1 0 (by decide) (by decide) (by decide),
   (C8_ext_header_lengths 0 0 0 0 []).2.2.2.1 64 (by decide) (by decide) (by decide),
   (C8_ext_header_lengths 0 0 0 0 []).2.2.2.2.1 32 4 (by decide) (by decide) (by decide),
   (C8_ext_header_lengths 0 0 0 0 []).2.2.2.2.2 16 2 (by decide) (by decide) (by decide)
     (by decide)⟩
